import Mathlib

/-!
# i2c-lua: transfer engine and result translator of `src/i2c-lua.c`

A shallow embedding of the C source.  The operating system (`malloc`, `open`,
`ioctl`, `close`, `free`) is a mock handed to the engine as a parameter, every
call to it is recorded in a trace, and the values pushed on the Lua stack are
recorded in the order of the pushes.

C strings and byte buffers are `List Char`.  Machine integers are `Int`/`Nat`
with the conversions of the C code written out (`toU16`, `toU32`, `toInt32`,
`toSizeT`).
-/

namespace I2cLua

/-! ## Constants (i2c-lua.c:40-47 and the system headers) -/

def I2CLUA_SUCCESS : Int := 0

def I2CLUA_ERR_BUS : Int := -1

def I2CLUA_ERR_DEV : Int := -2

def I2CLUA_ERR_ALLOC : Int := -3

def I2CLUA_ERR_PARAM : Int := -4

def I2CLUA_OP_WR : Nat := 1

def I2CLUA_OP_RD : Nat := 2

/-- The read flag `I2C_M_RD` of `linux/i2c.h`. -/
def I2C_M_RD : Nat := 1

/-- The request number `I2C_RDWR` of `linux/i2c-dev.h`. -/
def I2C_RDWR : Nat := 0x0707

/-- The access mode `O_RDWR` of `fcntl.h`. -/
def O_RDWR : Nat := 2

/-! ## Integer conversions of C -/

/-- Conversion to `__u16` (the type of `i2c_msg.addr`, `.flags` and `.len`). -/
def toU16 (x : Int) : Nat := (x % 65536).toNat

/-- Conversion to `__u32` (the type of `i2c_rdwr_ioctl_data.nmsgs`); an `int`
compared with a `__u32` is converted to it first. -/
def toU32 (x : Int) : Nat := (x % 4294967296).toNat

/-- Conversion of a `lua_Integer` to `int` (32 bit, two's complement). -/
def toInt32 (x : Int) : Int := (x + 2147483648) % 4294967296 - 2147483648

/-- Conversion of a `lua_Integer` to `size_t` (64 bit). -/
def toSizeT (x : Int) : Nat := (x % 18446744073709551616).toNat

/-! ## Memory, messages, the mock operating system -/

/-- A block of memory: its address and the bytes it holds. -/
structure Block where
  addr : Nat
  bytes : List Char
deriving DecidableEq

/-- A C pointer to bytes; `none` is the null pointer. -/
abbrev Ptr := Option Block

/-- The kernel's `struct i2c_msg`. -/
structure i2c_msg where
  addr : Nat
  flags : Nat
  len : Nat
  buf : Ptr
deriving DecidableEq

/-- The kernel's `struct i2c_rdwr_ioctl_data`: `msgs` holds the elements of the
array from the element pointed at onwards, `nmsgs` says how many of them the
kernel is to transfer. -/
structure i2c_rdwr_ioctl_data where
  msgs : List i2c_msg
  nmsgs : Nat
deriving DecidableEq

/-- The messages an ioctl request submits: the first `nmsgs` ones. -/
def submitted (d : i2c_rdwr_ioctl_data) : List i2c_msg := d.msgs.take d.nmsgs

/-- What the mock allocator hands out: the address of a fresh block and the
indeterminate byte found at each offset of it. -/
structure Allocation where
  addr : Nat
  garbage : Nat → Char

/-- What the mock ioctl answers: its return value and the bytes the device
delivers for the read message. -/
structure IoctlReply where
  ret : Int
  rx : List Char

/-- The mock operating system.  `sys_malloc n` is `none` when the allocation
fails, `sys_open path flags` is the descriptor or a negative value, and the
return value of `sys_ioctl` is a C `int`. -/
structure MockOS where
  sys_malloc : Nat → Option Allocation
  sys_open : List Char → Nat → Int
  sys_ioctl : Int → Nat → i2c_rdwr_ioctl_data → IoctlReply
  ioctl_int : ∀ fd req d,
    -2147483648 ≤ (sys_ioctl fd req d).ret ∧ (sys_ioctl fd req d).ret ≤ 2147483647

/-- The block `malloc(size)` returns: `size` bytes of indeterminate content. -/
def freshBlock (a : Allocation) (size : Nat) : Block :=
  { addr := a.addr, bytes := (List.range size).map a.garbage }

/-- The kernel copies at most `len` received bytes to the start of a buffer. -/
def copy_to_user (buf : List Char) (len : Nat) (rx : List Char) : List Char :=
  rx.take (min (min len rx.length) buf.length) ++ buf.drop (min (min len rx.length) buf.length)

/-- The read buffer `p` after an ioctl: when a read message was submitted, up
to `len` bytes of it have been overwritten with what the device delivered. -/
def afterIoctl (d : i2c_rdwr_ioctl_data) (rx : List Char) (p : Ptr) : Ptr :=
  match (submitted d).find? (fun m => m.flags &&& I2C_M_RD != 0) with
  | some m => p.map (fun b => { b with bytes := copy_to_user b.bytes m.len rx })
  | none => p

/-- One call to the operating system, with its arguments and its result. -/
inductive Event where
  | malloc (size : Nat) (result : Option Nat)
  | openDev (path : List Char) (flags : Nat) (fd : Int)
  | ioctl (fd : Int) (request : Nat) (data : i2c_rdwr_ioctl_data) (ret : Int)
  | close (fd : Int)
  | free (addr : Nat)
deriving DecidableEq

/-! ## The Lua side -/

/-- A value a C function pushes on the Lua stack. -/
inductive LuaValue where
  | number (n : Int)
  | string (s : List Char)
  | nil
deriving DecidableEq

/-- An argument on the Lua stack, given by what the conversion functions of
the Lua API return for it. -/
structure LuaArg where
  tointeger : Int
  tolstring : Ptr
  toboolean : Bool

/-- The part of the Lua state the functions read: the argument stack and the
position text `luaL_where(L, 1)` puts in front of an error message. -/
structure lua_State where
  stack : List LuaArg
  position : List Char

/-- How a Lua C function ends: it returns, or it raises an error value. -/
inductive LuaCall (α : Type) where
  | returned (out : α)
  | raised (msg : List Char)
deriving DecidableEq

def lua_gettop (L : lua_State) : Nat := L.stack.length

def lua_tointeger (L : lua_State) (idx : Nat) : Int :=
  ((L.stack.get? (idx - 1)).map LuaArg.tointeger).getD 0

def lua_toboolean (L : lua_State) (idx : Nat) : Bool :=
  ((L.stack.get? (idx - 1)).map LuaArg.toboolean).getD false

/-- The pointer `lua_tolstring` returns together with the length it stores. -/
def lua_tolstring (L : lua_State) (idx : Nat) : Ptr × Nat :=
  match (L.stack.get? (idx - 1)).bind LuaArg.tolstring with
  | some b => (some b, b.bytes.length)
  | none => (none, 0)

/-- The conversion `%d` of C and of Lua: the decimal digits, with a minus sign
for a negative value. -/
def fmt_d : Int → List Char
  | Int.ofNat m => (Nat.repr m).toList
  | Int.negSucc m => '-' :: (Nat.repr (m + 1)).toList

/-- An argument of `lua_pushfstring`.  The rendering of a `lua_Number` (`%f`)
and of a pointer (`%p`) is carried by the argument. -/
inductive FmtArg where
  | int (n : Int)
  | str (s : List Char)
  | num (rendered : List Char)
  | ptr (rendered : List Char)

/-- One conversion of `lua_pushvfstring` (Lua 5.1, `luaO_pushvfstring`): the
text it inserts and the arguments left.  Lua knows `%s`, `%c`, `%d`, `%f`,
`%p` and `%%`; any other character after `%` is copied together with the `%`
(the `default` case) and consumes no argument.  An argument of the wrong kind
is undefined in C and is rendered like the `default` case here. -/
def conversion (c : Char) (args : List FmtArg) : List Char × List FmtArg :=
  if c = '%' then (['%'], args)
  else match c, args with
    | 's', FmtArg.str s :: rest => (s, rest)
    | 'c', FmtArg.int n :: rest => ([Char.ofNat (n % 256).toNat], rest)
    | 'd', FmtArg.int n :: rest => (fmt_d n, rest)
    | 'f', FmtArg.num r :: rest => (r, rest)
    | 'p', FmtArg.ptr r :: rest => (r, rest)
    | _, _ => (['%', c], args)

/-- The formatter behind `lua_pushfstring` and `luaL_error`, reading the format
one character at a time; `pending` says that the previous character was a
`%` opening a conversion. -/
def lua_pushvfstring : Bool → List Char → List FmtArg → List Char
  | false, [], _ => []
  | true, [], _ => ['%']
  | false, c :: fmt, args =>
      if c = '%' then lua_pushvfstring true fmt args else c :: lua_pushvfstring false fmt args
  | true, c :: fmt, args =>
      (conversion c args).1 ++ lua_pushvfstring false fmt (conversion c args).2

def lua_pushfstring (fmt : String) (args : List FmtArg) : LuaValue :=
  LuaValue.string (lua_pushvfstring false fmt.toList args)

def lua_pushstring (s : String) : LuaValue := LuaValue.string s.toList

/-- The call `lua_pushlstring(L, p, n)` pushes the first `n` bytes at `p`. -/
def lua_pushlstring (p : Ptr) (n : Nat) : LuaValue :=
  match p with
  | some b => LuaValue.string (b.bytes.take n)
  | none => LuaValue.string []

/-- The call `lua_tostring(L, -1)` on a value just pushed. -/
def lua_tostring : LuaValue → List Char
  | LuaValue.string s => s
  | LuaValue.number n => fmt_d n
  | LuaValue.nil => []

/-- The call `luaL_error(L, fmt, ...)`: the error value is the position text
followed by the formatted message. -/
def luaL_error {α : Type} (L : lua_State) (fmt : List Char) (args : List FmtArg) : LuaCall α :=
  LuaCall.raised (L.position ++ lua_pushvfstring false fmt args)

/-! ## `i2clua_impl` (i2c-lua.c:51-107) -/

/-- The C formatting `snprintf(dev, size, ...)`: of the formatted text at most
`size - 1` characters are stored (the last byte is the terminator). -/
def snprintf (size : Nat) (formatted : List Char) : List Char := formatted.take (size - 1)

/-- Lines 57 and 71: `snprintf(dev, sizeof(dev) - 1, "/dev/i2c-%d", bus)` with
`char dev[20]`. -/
def devPath (bus : Int) : List Char := snprintf (20 - 1) ("/dev/i2c-".toList ++ fmt_d bus)

/-- The local variables of `i2clua_impl` together with the calls made and the
values pushed so far. -/
structure Frame where
  msgs0 : i2c_msg
  msgs1 : i2c_msg
  rc : Int
  trace : List Event
  pushed : List LuaValue

/-- Lines 53-60: the two messages and `rc = I2CLUA_SUCCESS`. -/
def initFrame (address : Int) (wr_data : Ptr) (wr_length rd_length : Nat) : Frame :=
  { msgs0 := { addr := toU16 address, flags := 0, buf := wr_data, len := wr_length % 65536 },
    msgs1 := { addr := toU16 address, flags := I2C_M_RD, buf := none, len := rd_length % 65536 },
    rc := I2CLUA_SUCCESS,
    trace := [],
    pushed := [] }

/-- Lines 62-67: allocate memory for the read transfer. -/
def allocStep (os : MockOS) (rd_length : Nat) (f : Frame) : Frame :=
  if rd_length > 0 then
    match os.sys_malloc rd_length with
    | some a =>
        { f with msgs1 := { f.msgs1 with buf := some (freshBlock a rd_length) },
                 trace := f.trace ++ [Event.malloc rd_length (some a.addr)] }
    | none =>
        { f with rc := I2CLUA_ERR_ALLOC,
                 trace := f.trace ++ [Event.malloc rd_length none] }
  else f

/-- Lines 76-84: the request handed to the ioctl. -/
def ioctlData (op : Nat) (msgs0 msgs1 : i2c_msg) : i2c_rdwr_ioctl_data :=
  if op &&& I2CLUA_OP_WR ≠ 0 ∧ op &&& I2CLUA_OP_RD ≠ 0 then
    { nmsgs := 2, msgs := [msgs0, msgs1] }
  else
    { nmsgs := 1, msgs := if op &&& I2CLUA_OP_WR ≠ 0 then [msgs0, msgs1] else [msgs1] }

/-- Lines 69-90: execute the transfer. -/
def transferStep (os : MockOS) (op : Nat) (bus : Int) (f : Frame) : Frame :=
  if f.rc = I2CLUA_SUCCESS then
    let dev := devPath bus
    let fd := os.sys_open dev O_RDWR
    if fd < 0 then
      { f with rc := I2CLUA_ERR_BUS, trace := f.trace ++ [Event.openDev dev O_RDWR fd] }
    else
      let ioctl_data := ioctlData op f.msgs0 f.msgs1
      let reply := os.sys_ioctl fd I2C_RDWR ioctl_data
      { f with
        msgs1 := { f.msgs1 with buf := afterIoctl ioctl_data reply.rx f.msgs1.buf },
        rc := if toU32 reply.ret ≠ ioctl_data.nmsgs then I2CLUA_ERR_DEV else f.rc,
        trace := f.trace ++ [Event.openDev dev O_RDWR fd,
                             Event.ioctl fd I2C_RDWR ioctl_data reply.ret,
                             Event.close fd] }
  else f

/-- Lines 92-101: return the results to Lua. -/
def resultStep (op rd_length : Nat) (f : Frame) : Frame :=
  let pushed := f.pushed ++ [LuaValue.number f.rc]
  if op &&& I2CLUA_OP_RD ≠ 0 then
    if f.rc = I2CLUA_SUCCESS ∧ rd_length > 0 then
      { f with pushed := pushed ++ [lua_pushlstring f.msgs1.buf rd_length] }
    else if f.rc = I2CLUA_SUCCESS then
      { f with pushed := pushed ++ [lua_pushstring ""] }
    else
      { f with pushed := pushed ++ [LuaValue.nil] }
  else { f with pushed := pushed }

/-- Lines 103-104: release the read buffer. -/
def freeStep (f : Frame) : Frame :=
  match f.msgs1.buf with
  | some b => { f with trace := f.trace ++ [Event.free b.addr] }
  | none => f

/-- What a call of `i2clua_impl` leaves behind: the calls to the operating
system, the values pushed, the number of results it reports to Lua (its return
value), the result code and the read buffer `msgs[1].buf` as it was when the
results were pushed. -/
structure Outcome where
  trace : List Event
  pushed : List LuaValue
  nresults : Nat
  rc : Int
  rdbuf : Ptr
deriving DecidableEq

def i2clua_impl (os : MockOS) (op : Nat) (bus address : Int) (wr_data : Ptr)
    (wr_length rd_length : Nat) : Outcome :=
  let f := freeStep (resultStep op rd_length (transferStep os op bus
    (allocStep os rd_length (initFrame address wr_data wr_length rd_length))))
  { trace := f.trace,
    pushed := f.pushed,
    nresults := if op &&& I2CLUA_OP_RD ≠ 0 then 2 else 1,
    rc := f.rc,
    rdbuf := f.msgs1.buf }

/-- The values Lua receives from a C function: the topmost `nresults` ones. -/
def results (o : Outcome) : List LuaValue := o.pushed.drop (o.pushed.length - o.nresults)

/-! ## The entry points (i2c-lua.c:134-276) -/

def i2clua_writeread (os : MockOS) (L : lua_State) : LuaCall Outcome :=
  let argc := lua_gettop L
  if argc < 2 then
    luaL_error L "Missing arguments. Usage: result, read_data = writeread(bus, address [, write_data [, read_length]])".toList []
  else
    let bus := toInt32 (lua_tointeger L 1)
    let address := toInt32 (lua_tointeger L 2)
    let write := if argc < 3 then ((none : Ptr), 0) else lua_tolstring L 3
    let read_length := if argc < 4 then 0 else toSizeT (lua_tointeger L 4)
    LuaCall.returned (i2clua_impl os (I2CLUA_OP_WR ||| I2CLUA_OP_RD) bus address
      write.1 write.2 read_length)

def i2clua_write (os : MockOS) (L : lua_State) : LuaCall Outcome :=
  let argc := lua_gettop L
  if argc < 2 then
    luaL_error L "Missing arguments. Usage: result = write(bus, address [, write_data])".toList []
  else
    let bus := toInt32 (lua_tointeger L 1)
    let address := toInt32 (lua_tointeger L 2)
    let write := if argc < 3 then ((none : Ptr), 0) else lua_tolstring L 3
    LuaCall.returned (i2clua_impl os I2CLUA_OP_WR bus address write.1 write.2 0)

def i2clua_read (os : MockOS) (L : lua_State) : LuaCall Outcome :=
  let argc := lua_gettop L
  if argc < 2 then
    luaL_error L "Missing arguments. Usage: result, read_data = read(bus, address [, read_length])".toList []
  else
    let bus := toInt32 (lua_tointeger L 1)
    let address := toInt32 (lua_tointeger L 2)
    let read_length := if argc < 3 then 0 else toSizeT (lua_tointeger L 3)
    LuaCall.returned (i2clua_impl os I2CLUA_OP_RD bus address none 0 read_length)

/-- Lines 251-270: the value the `switch` pushes. -/
def errmsg (result : Int) : LuaValue :=
  if result = I2CLUA_SUCCESS then lua_pushstring "success"
  else if result = I2CLUA_ERR_BUS then lua_pushstring "I2C bus error"
  else if result = I2CLUA_ERR_DEV then lua_pushstring "I2C device error (no ACK)"
  else if result = I2CLUA_ERR_ALLOC then lua_pushstring "I2C memory allocation failed"
  else if result = I2CLUA_ERR_PARAM then lua_pushstring "I2C: invalid parameter"
  else lua_pushfstring "I2C: invalid result code (%i)" [FmtArg.int result]

/-- The function returns the values pushed and their number. -/
def i2clua_error (L : lua_State) : LuaCall (List LuaValue × Nat) :=
  let argc := lua_gettop L
  if argc < 1 then
    luaL_error L "Missing arguments. Usage: errmsg = error(result [, raise])".toList []
  else
    let result := toInt32 (lua_tointeger L 1)
    let raise := if argc < 2 then false else lua_toboolean L 2
    let top := errmsg result
    if result ≠ I2CLUA_SUCCESS ∧ raise = true then
      luaL_error L (lua_tostring top) []
    else
      LuaCall.returned ([top], 1)

/-! ## Vocabulary of the statements -/

/-- The allocation of the read buffer fails: it is attempted (`rd_length > 0`)
and `malloc` returns the null pointer. -/
def allocFails (os : MockOS) (rd_length : Nat) : Prop :=
  0 < rd_length ∧ (os.sys_malloc rd_length).isNone = true

instance (os : MockOS) (rd_length : Nat) : Decidable (allocFails os rd_length) :=
  inferInstanceAs (Decidable (0 < rd_length ∧ (os.sys_malloc rd_length).isNone = true))

/-- The read buffer of a request before the transfer: the block `malloc`
returned, the null pointer when nothing was allocated. -/
def readBuffer (os : MockOS) (rd_length : Nat) : Ptr :=
  if rd_length > 0 then (os.sys_malloc rd_length).map (fun a => freshBlock a rd_length) else none

/-- The descriptor `open` returns for a bus. -/
def openResult (os : MockOS) (bus : Int) : Int := os.sys_open (devPath bus) O_RDWR

/-- Calls on the device node: open, ioctl, close. -/
def Event.isDeviceCall : Event → Bool
  | Event.openDev _ _ _ => true
  | Event.ioctl _ _ _ _ => true
  | Event.close _ => true
  | _ => false

/-- Calls on the heap: malloc, free. -/
def Event.isHeapCall : Event → Bool
  | Event.malloc _ _ => true
  | Event.free _ => true
  | _ => false

def Event.isIoctl : Event → Bool
  | Event.ioctl _ _ _ _ => true
  | _ => false

def deviceCalls (trace : List Event) : List Event := trace.filter Event.isDeviceCall

def heapCalls (trace : List Event) : List Event := trace.filter Event.isHeapCall

def ioctlCalls (trace : List Event) : List Event := trace.filter Event.isIoctl

/-- The bytes a pointer points at (none for the null pointer). -/
def contents : Ptr → List Char
  | some b => b.bytes
  | none => []

/-- The request the ioctl of a transfer receives: lines 76-84 applied to the
two messages as they are after the allocation. -/
def request (os : MockOS) (op : Nat) (address : Int) (wr_data : Ptr)
    (wr_length rd_length : Nat) : i2c_rdwr_ioctl_data :=
  ioctlData op
    { addr := toU16 address, flags := 0, buf := wr_data, len := wr_length % 65536 }
    { addr := toU16 address, flags := I2C_M_RD, buf := readBuffer os rd_length,
      len := rd_length % 65536 }

/-- The call to `malloc` of a transfer, if it makes one. -/
def mallocCalls (os : MockOS) (rd_length : Nat) : List Event :=
  if rd_length > 0 then
    [Event.malloc rd_length ((os.sys_malloc rd_length).map Allocation.addr)]
  else []

/-- The call to `free` that releases the block at `p`, none for the null
pointer. -/
def freeCalls : Ptr → List Event
  | some b => [Event.free b.addr]
  | none => []

/-- The value the ioctl of a transfer returns. -/
def ioctlReturn (os : MockOS) (op : Nat) (bus address : Int) (wr_data : Ptr)
    (wr_length rd_length : Nat) : Int :=
  (os.sys_ioctl (openResult os bus) I2C_RDWR
    (request os op address wr_data wr_length rd_length)).ret

/-- A payload of 65536 bytes. -/
def bigPayload : List Char := List.replicate 65536 'A'

/-- The bytes the stub device delivers: a `Z` for every byte a read message
asks for. -/
def stubRx (d : i2c_rdwr_ioctl_data) : List Char :=
  match (submitted d).find? (fun m => m.flags &&& I2C_M_RD != 0) with
  | some m => List.replicate m.len 'Z'
  | none => []

/-- A stub operating system: `malloc` succeeds or not as `memOk` says and
returns a block at address 4096 filled with `?`, `open` returns `fd`, the
ioctl returns `ret` (as an `int`) and delivers `stubRx`. -/
def stubOS (memOk : Bool) (fd ret : Int) : MockOS :=
  { sys_malloc := fun _ => if memOk then some { addr := 4096, garbage := fun _ => '?' } else none,
    sys_open := fun _ _ => fd,
    sys_ioctl := fun _ _ d => { ret := toInt32 ret, rx := stubRx d },
    ioctl_int := by
      intro _ _ _
      simp only [toInt32]
      omega }

/-- A Lua argument holding an integer (its other conversions are not read). -/
def intArg (n : Int) : LuaArg := { tointeger := n, tolstring := none, toboolean := true }

/-- A Lua argument holding a string stored at address 256. -/
def strArg (s : List Char) : LuaArg :=
  { tointeger := 0, tolstring := some { addr := 256, bytes := s }, toboolean := true }

/-- A Lua argument holding a boolean. -/
def boolArg (b : Bool) : LuaArg := { tointeger := 0, tolstring := none, toboolean := b }


/-! ## Lemmas on the steps of `i2clua_impl` -/

theorem toU32_eq_iff (r : Int) (n : Nat) (hr : -2147483648 ≤ r ∧ r ≤ 2147483647)
    (hn : n ≤ 2147483647) : toU32 r = n ↔ r = (n : Int) := by
  unfold toU32
  omega

theorem ioctlData_nmsgs (op : Nat) (m0 m1 : i2c_msg) :
    (ioctlData op m0 m1).nmsgs = 1 ∨ (ioctlData op m0 m1).nmsgs = 2 := by
  unfold ioctlData
  split <;> simp

theorem allocStep_init (os : MockOS) (address : Int) (wr_data : Ptr) (wr_length rd_length : Nat) :
    allocStep os rd_length (initFrame address wr_data wr_length rd_length) =
      { msgs0 := { addr := toU16 address, flags := 0, buf := wr_data, len := wr_length % 65536 },
        msgs1 := { addr := toU16 address, flags := I2C_M_RD, buf := readBuffer os rd_length,
                   len := rd_length % 65536 },
        rc := if allocFails os rd_length then I2CLUA_ERR_ALLOC else I2CLUA_SUCCESS,
        trace := if rd_length > 0 then
            [Event.malloc rd_length ((os.sys_malloc rd_length).map Allocation.addr)] else [],
        pushed := [] } := by
  by_cases h : rd_length > 0
  · cases hm : os.sys_malloc rd_length with
    | none =>
        have hf : allocFails os rd_length := ⟨h, by simp [hm]⟩
        simp [allocStep, initFrame, readBuffer, h, hm, hf]
    | some a =>
        have hf : ¬ allocFails os rd_length := fun hf => by
          have h2 := hf.2
          simp [hm] at h2
        simp [allocStep, initFrame, readBuffer, h, hm, hf]
  · have hf : ¬ allocFails os rd_length := fun hf => h hf.1
    simp [allocStep, initFrame, readBuffer, h, hf]

theorem freeStep_eq (f : Frame) :
    freeStep f = { f with trace := f.trace ++ freeCalls f.msgs1.buf } := by
  unfold freeStep
  cases h : f.msgs1.buf <;> simp [freeCalls]

theorem afterIoctl_addr (d : i2c_rdwr_ioctl_data) (rx : List Char) (p : Ptr) :
    freeCalls (afterIoctl d rx p) = freeCalls p := by
  unfold afterIoctl
  split
  · cases p <;> simp [freeCalls]
  · rfl

theorem impl_of_allocFails (os : MockOS) (op : Nat) (bus address : Int) (wr_data : Ptr)
    (wr_length rd_length : Nat) (hf : allocFails os rd_length) :
    i2clua_impl os op bus address wr_data wr_length rd_length =
      { trace := [Event.malloc rd_length none],
        pushed := LuaValue.number I2CLUA_ERR_ALLOC ::
          (if op &&& I2CLUA_OP_RD ≠ 0 then [LuaValue.nil] else []),
        nresults := if op &&& I2CLUA_OP_RD ≠ 0 then 2 else 1,
        rc := I2CLUA_ERR_ALLOC,
        rdbuf := none } := by
  have hpos : rd_length > 0 := hf.1
  have hnone : os.sys_malloc rd_length = none := by
    have h2 := hf.2
    cases hm : os.sys_malloc rd_length with
    | none => rfl
    | some a => simp [hm] at h2
  unfold i2clua_impl
  rw [allocStep_init]
  by_cases hrd : op &&& I2CLUA_OP_RD ≠ 0 <;>
    simp [transferStep, resultStep, freeStep, readBuffer, hf, hpos, hnone, hrd,
      I2CLUA_ERR_ALLOC, I2CLUA_SUCCESS]

theorem impl_of_openFails (os : MockOS) (op : Nat) (bus address : Int) (wr_data : Ptr)
    (wr_length rd_length : Nat) (hf : ¬ allocFails os rd_length)
    (hfd : openResult os bus < 0) :
    i2clua_impl os op bus address wr_data wr_length rd_length =
      { trace := mallocCalls os rd_length ++
          [Event.openDev (devPath bus) O_RDWR (openResult os bus)] ++
          freeCalls (readBuffer os rd_length),
        pushed := LuaValue.number I2CLUA_ERR_BUS ::
          (if op &&& I2CLUA_OP_RD ≠ 0 then [LuaValue.nil] else []),
        nresults := if op &&& I2CLUA_OP_RD ≠ 0 then 2 else 1,
        rc := I2CLUA_ERR_BUS,
        rdbuf := readBuffer os rd_length } := by
  unfold i2clua_impl
  rw [allocStep_init]
  unfold openResult at hfd
  by_cases hrd : op &&& I2CLUA_OP_RD ≠ 0 <;>
    cases hb : readBuffer os rd_length <;>
    simp [transferStep, resultStep, freeStep, freeCalls, mallocCalls, openResult,
      hf, hfd, hrd, hb, I2CLUA_ERR_BUS, I2CLUA_SUCCESS]

theorem impl_of_open (os : MockOS) (op : Nat) (bus address : Int) (wr_data : Ptr)
    (wr_length rd_length : Nat) (hf : ¬ allocFails os rd_length)
    (hfd : 0 ≤ openResult os bus) :
    i2clua_impl os op bus address wr_data wr_length rd_length =
      { trace := mallocCalls os rd_length ++
          [Event.openDev (devPath bus) O_RDWR (openResult os bus),
           Event.ioctl (openResult os bus) I2C_RDWR
             (request os op address wr_data wr_length rd_length)
             (os.sys_ioctl (openResult os bus) I2C_RDWR
               (request os op address wr_data wr_length rd_length)).ret,
           Event.close (openResult os bus)] ++
          freeCalls (readBuffer os rd_length),
        pushed := LuaValue.number
            (if (os.sys_ioctl (openResult os bus) I2C_RDWR
                  (request os op address wr_data wr_length rd_length)).ret =
                ((request os op address wr_data wr_length rd_length).nmsgs : Int)
             then I2CLUA_SUCCESS else I2CLUA_ERR_DEV) ::
          (if op &&& I2CLUA_OP_RD ≠ 0 then
            [if (os.sys_ioctl (openResult os bus) I2C_RDWR
                  (request os op address wr_data wr_length rd_length)).ret =
                ((request os op address wr_data wr_length rd_length).nmsgs : Int)
             then LuaValue.string ((contents (afterIoctl
                    (request os op address wr_data wr_length rd_length)
                    (os.sys_ioctl (openResult os bus) I2C_RDWR
                      (request os op address wr_data wr_length rd_length)).rx
                    (readBuffer os rd_length))).take rd_length)
             else LuaValue.nil]
           else []),
        nresults := if op &&& I2CLUA_OP_RD ≠ 0 then 2 else 1,
        rc := if (os.sys_ioctl (openResult os bus) I2C_RDWR
                  (request os op address wr_data wr_length rd_length)).ret =
                ((request os op address wr_data wr_length rd_length).nmsgs : Int)
              then I2CLUA_SUCCESS else I2CLUA_ERR_DEV,
        rdbuf := afterIoctl (request os op address wr_data wr_length rd_length)
          (os.sys_ioctl (openResult os bus) I2C_RDWR
            (request os op address wr_data wr_length rd_length)).rx
          (readBuffer os rd_length) } := by
  have hn : (request os op address wr_data wr_length rd_length).nmsgs ≤ 2147483647 := by
    unfold request
    rcases ioctlData_nmsgs op
      { addr := toU16 address, flags := 0, buf := wr_data, len := wr_length % 65536 }
      { addr := toU16 address, flags := I2C_M_RD, buf := readBuffer os rd_length,
        len := rd_length % 65536 } with h | h <;>
      omega
  have hcmp := toU32_eq_iff
    (os.sys_ioctl (openResult os bus) I2C_RDWR
      (request os op address wr_data wr_length rd_length)).ret
    (request os op address wr_data wr_length rd_length).nmsgs
    (os.ioctl_int _ _ _) hn
  unfold openResult at hfd hcmp ⊢
  have hfd2 : ¬ (os.sys_open (devPath bus) O_RDWR < 0) := by omega
  generalize hreq : request os op address wr_data wr_length rd_length = d at *
  generalize hrep : os.sys_ioctl (os.sys_open (devPath bus) O_RDWR) I2C_RDWR d = reply at *
  unfold request at hreq
  unfold i2clua_impl
  rw [allocStep_init]
  have hpush : ∀ (p : Ptr) (n : Nat), lua_pushlstring p n = LuaValue.string ((contents p).take n) := by
    intro p n
    cases p <;> simp [lua_pushlstring, contents]
  by_cases hok : reply.ret = (d.nmsgs : Int)
  · have hu : toU32 reply.ret = d.nmsgs := hcmp.2 hok
    have hok2 : (reply.ret = (d.nmsgs : Int)) = True := eq_true hok
    by_cases hrd : op &&& I2CLUA_OP_RD ≠ 0 <;>
      by_cases hpos : rd_length > 0 <;>
      simp [transferStep, resultStep, freeStep_eq, afterIoctl_addr, mallocCalls, hf, hfd2, hrd,
        hreq, hrep, hok2, hu, hpos, hpush, I2CLUA_SUCCESS, I2CLUA_ERR_DEV]
    have h0 : rd_length = 0 := by omega
    simp [h0, lua_pushstring]
  · have hu : ¬ toU32 reply.ret = d.nmsgs := fun h => hok (hcmp.1 h)
    by_cases hrd : op &&& I2CLUA_OP_RD ≠ 0 <;>
      simp [transferStep, resultStep, freeStep_eq, afterIoctl_addr, mallocCalls, hf, hfd2, hrd,
        hreq, hrep, hok, hu, hpush, I2CLUA_SUCCESS, I2CLUA_ERR_DEV]

theorem filter_mallocCalls_device (os : MockOS) (n : Nat) :
    deviceCalls (mallocCalls os n) = [] := by
  unfold deviceCalls mallocCalls
  split <;> simp [Event.isDeviceCall]

theorem filter_freeCalls_device (p : Ptr) : deviceCalls (freeCalls p) = [] := by
  cases p <;> simp [deviceCalls, freeCalls, Event.isDeviceCall]

theorem filter_mallocCalls_ioctl (os : MockOS) (n : Nat) :
    ioctlCalls (mallocCalls os n) = [] := by
  unfold ioctlCalls mallocCalls
  split <;> simp [Event.isIoctl]

theorem filter_freeCalls_ioctl (p : Ptr) : ioctlCalls (freeCalls p) = [] := by
  cases p <;> simp [ioctlCalls, freeCalls, Event.isIoctl]

theorem filter_mallocCalls_heap (os : MockOS) (n : Nat) :
    heapCalls (mallocCalls os n) = mallocCalls os n := by
  unfold heapCalls mallocCalls
  split <;> simp [Event.isHeapCall]

theorem filter_freeCalls_heap (p : Ptr) : heapCalls (freeCalls p) = freeCalls p := by
  cases p <;> simp [heapCalls, freeCalls, Event.isHeapCall]

theorem deviceCalls_append (a b : List Event) :
    deviceCalls (a ++ b) = deviceCalls a ++ deviceCalls b := by
  simp [deviceCalls]

theorem ioctlCalls_append (a b : List Event) :
    ioctlCalls (a ++ b) = ioctlCalls a ++ ioctlCalls b := by
  simp [ioctlCalls]

theorem heapCalls_append (a b : List Event) :
    heapCalls (a ++ b) = heapCalls a ++ heapCalls b := by
  simp [heapCalls]

theorem mallocCalls_of_allocFails (os : MockOS) (n : Nat) (hf : allocFails os n) :
    mallocCalls os n = [Event.malloc n none] ∧ readBuffer os n = none := by
  have hpos : n > 0 := hf.1
  have h2 := hf.2
  cases hm : os.sys_malloc n with
  | none => simp [mallocCalls, readBuffer, hpos, hm]
  | some a => simp [hm] at h2

theorem copy_to_user_length (buf : List Char) (len : Nat) (rx : List Char) :
    (copy_to_user buf len rx).length = buf.length := by
  unfold copy_to_user
  simp only [List.length_append, List.length_take, List.length_drop]
  omega

theorem contents_afterIoctl_length (d : i2c_rdwr_ioctl_data) (rx : List Char) (p : Ptr) :
    (contents (afterIoctl d rx p)).length = (contents p).length := by
  unfold afterIoctl
  split
  · cases p <;> simp [contents, copy_to_user_length]
  · rfl

theorem readBuffer_length (os : MockOS) (n : Nat) (hf : ¬ allocFails os n) :
    (contents (readBuffer os n)).length = n := by
  unfold readBuffer
  by_cases hpos : n > 0
  · cases hm : os.sys_malloc n with
    | none => exact absurd ⟨hpos, by simp [hm]⟩ hf
    | some a => simp [hpos, contents, freshBlock]
  · have h0 : n = 0 := by omega
    simp [h0, contents]

theorem toU16_toInt32_small (address : Nat) (h : address < 256) :
    toU16 (toInt32 (address : Int)) = address := by
  unfold toU16 toInt32
  omega

theorem toSizeT_small (n : Nat) (h : n < 65536) : toSizeT (n : Int) = n := by
  unfold toSizeT
  omega

theorem ioctlCalls_impl_of_open (os : MockOS) (op : Nat) (bus address : Int) (wr_data : Ptr)
    (wr_length rd_length : Nat) (hf : ¬ allocFails os rd_length)
    (hfd : 0 ≤ openResult os bus) :
    ioctlCalls (i2clua_impl os op bus address wr_data wr_length rd_length).trace =
      [Event.ioctl (openResult os bus) I2C_RDWR
        (request os op address wr_data wr_length rd_length)
        (ioctlReturn os op bus address wr_data wr_length rd_length)] := by
  rw [impl_of_open os op bus address wr_data wr_length rd_length hf hfd]
  simp only [ioctlCalls_append, filter_mallocCalls_ioctl, filter_freeCalls_ioctl]
  simp [ioctlCalls, Event.isIoctl, ioctlReturn]

theorem errmsg_unknown (code : Int) (h0 : code ≠ 0) (h1 : code ≠ -1) (h2 : code ≠ -2)
    (h3 : code ≠ -3) (h4 : code ≠ -4) :
    errmsg code = LuaValue.string "I2C: invalid result code (%i)".toList := by
  unfold errmsg
  simp only [I2CLUA_SUCCESS, I2CLUA_ERR_BUS, I2CLUA_ERR_DEV, I2CLUA_ERR_ALLOC, I2CLUA_ERR_PARAM,
    if_neg h0, if_neg h1, if_neg h2, if_neg h3, if_neg h4]
  rfl

theorem errmsg_reformat (code : Int) :
    ∃ msg, errmsg code = LuaValue.string msg ∧ lua_pushvfstring false msg [] = msg := by
  by_cases h0 : code = 0
  · subst h0
    exact ⟨"success".toList, by decide, by decide⟩
  by_cases h1 : code = -1
  · subst h1
    exact ⟨"I2C bus error".toList, by decide, by decide⟩
  by_cases h2 : code = -2
  · subst h2
    exact ⟨"I2C device error (no ACK)".toList, by decide, by decide⟩
  by_cases h3 : code = -3
  · subst h3
    exact ⟨"I2C memory allocation failed".toList, by decide, by decide⟩
  by_cases h4 : code = -4
  · subst h4
    exact ⟨"I2C: invalid parameter".toList, by decide, by decide⟩
  exact ⟨"I2C: invalid result code (%i)".toList, errmsg_unknown code h0 h1 h2 h3 h4, by decide⟩

theorem mem_freeCalls (p : Ptr) (e : Event) (h : e ∈ freeCalls p) : ∃ a, e = Event.free a := by
  cases p with
  | none => simp [freeCalls] at h
  | some b =>
      simp [freeCalls] at h
      exact ⟨b.addr, h⟩

theorem mem_mallocCalls (os : MockOS) (n : Nat) (e : Event) (h : e ∈ mallocCalls os n) :
    ∃ k r, e = Event.malloc k r := by
  unfold mallocCalls at h
  split at h
  · simp at h
    exact ⟨_, _, h⟩
  · simp at h

theorem mem_mallocCalls_none (os : MockOS) (n k : Nat) :
    Event.malloc k none ∈ mallocCalls os n ↔ k = n ∧ allocFails os n := by
  unfold mallocCalls allocFails
  by_cases hpos : n > 0
  · cases hm : os.sys_malloc n <;> simp [hpos, hm]
  · simp [hpos]

theorem heap_calls_of_impl (os : MockOS) (op : Nat) (bus address : Int) (wr_data : Ptr)
    (wr_length rd_length : Nat) :
    ((∃ n r, Event.malloc n r ∈
        (i2clua_impl os op bus address wr_data wr_length rd_length).trace) ↔ 0 < rd_length) ∧
    (∀ a, 0 < rd_length → os.sys_malloc rd_length = some a →
      heapCalls (i2clua_impl os op bus address wr_data wr_length rd_length).trace =
        [Event.malloc rd_length (some a.addr), Event.free a.addr] ∧
      (i2clua_impl os op bus address wr_data wr_length rd_length).trace.getLast? =
        some (Event.free a.addr)) ∧
    (allocFails os rd_length →
      heapCalls (i2clua_impl os op bus address wr_data wr_length rd_length).trace =
        [Event.malloc rd_length none]) ∧
    (rd_length = 0 →
      heapCalls (i2clua_impl os op bus address wr_data wr_length rd_length).trace = []) := by
  have key : ∀ (op : Nat) (bus address : Int) (wr_data : Ptr) (wr_length rd_length : Nat),
      heapCalls (i2clua_impl os op bus address wr_data wr_length rd_length).trace =
        mallocCalls os rd_length ++ freeCalls (readBuffer os rd_length) ∧
      ∃ mid, (i2clua_impl os op bus address wr_data wr_length rd_length).trace =
        mallocCalls os rd_length ++ mid ++ freeCalls (readBuffer os rd_length) ∧
        ∀ n r, Event.malloc n r ∉ mid := by
    intro op bus address wr_data wr_length rd_length
    by_cases hf : allocFails os rd_length
    · rw [impl_of_allocFails os op bus address wr_data wr_length rd_length hf]
      obtain ⟨h1, h2⟩ := mallocCalls_of_allocFails os rd_length hf
      refine ⟨?_, [], ?_, by simp⟩
      · simp [h1, h2, freeCalls, heapCalls, Event.isHeapCall]
      · simp [h1, h2, freeCalls]
    · by_cases hfd : openResult os bus < 0
      · rw [impl_of_openFails os op bus address wr_data wr_length rd_length hf hfd]
        refine ⟨?_, [Event.openDev (devPath bus) O_RDWR (openResult os bus)], rfl, by simp⟩
        simp only [heapCalls_append, filter_mallocCalls_heap, filter_freeCalls_heap]
        simp [heapCalls, Event.isHeapCall]
      · rw [impl_of_open os op bus address wr_data wr_length rd_length hf (by omega)]
        refine ⟨?_, _, rfl, by simp⟩
        simp only [heapCalls_append, filter_mallocCalls_heap, filter_freeCalls_heap]
        simp [heapCalls, Event.isHeapCall]
  obtain ⟨hheap, mid, htrace, hmid⟩ := key op bus address wr_data wr_length rd_length
  refine ⟨?_, ?_, ?_, ?_⟩
  · rw [htrace]
    constructor
    · rintro ⟨n, r, hmem⟩
      by_contra hpos
      have hnone : ∀ p : Ptr, Event.malloc n r ∉ freeCalls p := by
        intro p
        cases p <;> simp [freeCalls]
      simp [mallocCalls, hpos, hmid, hnone] at hmem
    · intro hpos
      exact ⟨rd_length, (os.sys_malloc rd_length).map Allocation.addr, by simp [mallocCalls, hpos]⟩
  · intro a hpos hm
    constructor
    · rw [hheap]
      simp [mallocCalls, readBuffer, freeCalls, hpos, hm, freshBlock]
    · rw [htrace]
      simp [readBuffer, freeCalls, hpos, hm, freshBlock]
  · intro hf
    obtain ⟨h1, h2⟩ := mallocCalls_of_allocFails os rd_length hf
    rw [hheap, h1, h2]
    rfl
  · intro h0
    rw [hheap]
    simp [mallocCalls, readBuffer, freeCalls, h0]

/-! ## The claims -/

/-- C3: the calls on the device node made by a transfer are none when the
allocation of the read buffer fails, the single `open` when `open` fails, and
otherwise `open`, one `ioctl` on the descriptor opened, and `close` of that
descriptor, in this order, whatever the ioctl returns; so a request issues one
ioctl, or none when the allocation or the opening fails. -/
theorem device_call_sequence (os : MockOS) (op : Nat) (bus address : Int) (wr_data : Ptr)
    (wr_length rd_length : Nat) :
    deviceCalls (i2clua_impl os op bus address wr_data wr_length rd_length).trace =
      (if allocFails os rd_length then []
       else if openResult os bus < 0 then
         [Event.openDev (devPath bus) O_RDWR (openResult os bus)]
       else
         [Event.openDev (devPath bus) O_RDWR (openResult os bus),
          Event.ioctl (openResult os bus) I2C_RDWR
            (request os op address wr_data wr_length rd_length)
            (ioctlReturn os op bus address wr_data wr_length rd_length),
          Event.close (openResult os bus)]) ∧
    (ioctlCalls (i2clua_impl os op bus address wr_data wr_length rd_length).trace).length =
      (if allocFails os rd_length ∨ openResult os bus < 0 then 0 else 1) := by
  by_cases hf : allocFails os rd_length
  · rw [impl_of_allocFails os op bus address wr_data wr_length rd_length hf]
    simp [hf, deviceCalls, ioctlCalls, Event.isDeviceCall, Event.isIoctl]
  · by_cases hfd : openResult os bus < 0
    · rw [impl_of_openFails os op bus address wr_data wr_length rd_length hf hfd]
      simp only [deviceCalls_append, ioctlCalls_append, filter_mallocCalls_device,
        filter_freeCalls_device, filter_mallocCalls_ioctl, filter_freeCalls_ioctl]
      simp [hf, hfd, deviceCalls, ioctlCalls, Event.isDeviceCall, Event.isIoctl]
    · rw [impl_of_open os op bus address wr_data wr_length rd_length hf (by omega)]
      simp only [deviceCalls_append, ioctlCalls_append, filter_mallocCalls_device,
        filter_freeCalls_device, filter_mallocCalls_ioctl, filter_freeCalls_ioctl]
      simp [hf, hfd, deviceCalls, ioctlCalls, Event.isDeviceCall, Event.isIoctl, ioctlReturn]

/-- C2: the result code of a transfer is ERR_ALLOC (-3) when the allocation of
the read buffer fails, else ERR_BUS (-1) when `open` fails, else ERR_DEV (-2)
when the value the ioctl returns differs from the number of messages
submitted, else SUCCESS (0); it is the first value returned to Lua.  In terms
of the calls made: it is SUCCESS exactly when an ioctl was issued and returned
the number of messages it was given, ERR_DEV exactly when an ioctl was issued
and returned another value, ERR_BUS exactly when an `open` returned a negative
value, ERR_ALLOC exactly when a `malloc` returned the null pointer.  The
three error codes are pairwise different and ERR_PARAM (-4) is never the
result. -/
theorem result_code (os : MockOS) (op : Nat) (bus address : Int) (wr_data : Ptr)
    (wr_length rd_length : Nat) :
    (i2clua_impl os op bus address wr_data wr_length rd_length).rc =
      (if allocFails os rd_length then I2CLUA_ERR_ALLOC
       else if openResult os bus < 0 then I2CLUA_ERR_BUS
       else if ioctlReturn os op bus address wr_data wr_length rd_length ≠
           ((request os op address wr_data wr_length rd_length).nmsgs : Int)
         then I2CLUA_ERR_DEV
       else I2CLUA_SUCCESS) ∧
    (results (i2clua_impl os op bus address wr_data wr_length rd_length)).head? =
      some (LuaValue.number (i2clua_impl os op bus address wr_data wr_length rd_length).rc) ∧
    ((i2clua_impl os op bus address wr_data wr_length rd_length).rc = I2CLUA_SUCCESS ↔
      ∃ fd rq data ret,
        Event.ioctl fd rq data ret ∈
          (i2clua_impl os op bus address wr_data wr_length rd_length).trace ∧
        ret = (data.nmsgs : Int)) ∧
    ((i2clua_impl os op bus address wr_data wr_length rd_length).rc = I2CLUA_ERR_DEV ↔
      ∃ fd rq data ret,
        Event.ioctl fd rq data ret ∈
          (i2clua_impl os op bus address wr_data wr_length rd_length).trace ∧
        ret ≠ (data.nmsgs : Int)) ∧
    ((i2clua_impl os op bus address wr_data wr_length rd_length).rc = I2CLUA_ERR_BUS ↔
      ∃ path flags fd,
        Event.openDev path flags fd ∈
          (i2clua_impl os op bus address wr_data wr_length rd_length).trace ∧
        fd < 0) ∧
    ((i2clua_impl os op bus address wr_data wr_length rd_length).rc = I2CLUA_ERR_ALLOC ↔
      ∃ n, Event.malloc n none ∈
        (i2clua_impl os op bus address wr_data wr_length rd_length).trace) ∧
    (i2clua_impl os op bus address wr_data wr_length rd_length).rc ≠ I2CLUA_ERR_PARAM ∧
    I2CLUA_ERR_ALLOC ≠ I2CLUA_ERR_BUS ∧ I2CLUA_ERR_BUS ≠ I2CLUA_ERR_DEV ∧
    I2CLUA_ERR_ALLOC ≠ I2CLUA_ERR_DEV := by
  have hmem : ∀ (p : Ptr) (fd : Int) (rq : Nat) (data : i2c_rdwr_ioctl_data) (ret : Int),
      Event.ioctl fd rq data ret ∉ freeCalls p := by
    intro p fd rq data ret
    cases p <;> simp [freeCalls]
  have hmem2 : ∀ (n : Nat) (fd : Int) (rq : Nat) (data : i2c_rdwr_ioctl_data) (ret : Int),
      Event.ioctl fd rq data ret ∉ mallocCalls os n := by
    intro n fd rq data ret
    unfold mallocCalls
    split <;> simp
  have hmem3 : ∀ (p : Ptr) (path : List Char) (flags : Nat) (fd : Int),
      Event.openDev path flags fd ∉ freeCalls p := by
    intro p path flags fd h
    obtain ⟨a, ha⟩ := mem_freeCalls p _ h
    cases ha
  have hmem4 : ∀ (n : Nat) (path : List Char) (flags : Nat) (fd : Int),
      Event.openDev path flags fd ∉ mallocCalls os n := by
    intro n path flags fd h
    obtain ⟨k, r, hk⟩ := mem_mallocCalls os n _ h
    cases hk
  have hmem5 : ∀ (p : Ptr) (n : Nat), Event.malloc n none ∉ freeCalls p := by
    intro p n h
    obtain ⟨a, ha⟩ := mem_freeCalls p _ h
    cases ha
  refine ⟨?_, ?_, ?_, ?_, ?_, ?_, ?_, by decide, by decide, by decide⟩
  · by_cases hf : allocFails os rd_length
    · rw [impl_of_allocFails os op bus address wr_data wr_length rd_length hf]
      simp [hf]
    · by_cases hfd : openResult os bus < 0
      · rw [impl_of_openFails os op bus address wr_data wr_length rd_length hf hfd]
        simp [hf, hfd]
      · rw [impl_of_open os op bus address wr_data wr_length rd_length hf (by omega)]
        by_cases hr : ioctlReturn os op bus address wr_data wr_length rd_length =
            ((request os op address wr_data wr_length rd_length).nmsgs : Int)
        · simp [hf, hfd, hr]
          unfold ioctlReturn at hr
          simp [hr]
        · simp [hf, hfd, hr]
          unfold ioctlReturn at hr
          simp [hr]
  · by_cases hf : allocFails os rd_length
    · rw [impl_of_allocFails os op bus address wr_data wr_length rd_length hf]
      by_cases hrd : op &&& I2CLUA_OP_RD ≠ 0 <;> simp [results, hrd]
    · by_cases hfd : openResult os bus < 0
      · rw [impl_of_openFails os op bus address wr_data wr_length rd_length hf hfd]
        by_cases hrd : op &&& I2CLUA_OP_RD ≠ 0 <;> simp [results, hrd]
      · rw [impl_of_open os op bus address wr_data wr_length rd_length hf (by omega)]
        by_cases hrd : op &&& I2CLUA_OP_RD ≠ 0 <;> simp [results, hrd]
  · by_cases hf : allocFails os rd_length
    · rw [impl_of_allocFails os op bus address wr_data wr_length rd_length hf]
      simp [I2CLUA_ERR_ALLOC, I2CLUA_SUCCESS]
    · by_cases hfd : openResult os bus < 0
      · rw [impl_of_openFails os op bus address wr_data wr_length rd_length hf hfd]
        simp [I2CLUA_ERR_BUS, I2CLUA_SUCCESS, hmem, hmem2]
      · rw [impl_of_open os op bus address wr_data wr_length rd_length hf (by omega)]
        by_cases hr : (os.sys_ioctl (openResult os bus) I2C_RDWR
            (request os op address wr_data wr_length rd_length)).ret =
            ((request os op address wr_data wr_length rd_length).nmsgs : Int)
        · simp only [if_pos hr, true_iff]
          refine ⟨openResult os bus, I2C_RDWR, request os op address wr_data wr_length rd_length,
            _, ?_, hr⟩
          simp
        · simp [hr, I2CLUA_ERR_DEV, I2CLUA_SUCCESS, hmem, hmem2]
          intro h
          exact hr h.symm
  · by_cases hf : allocFails os rd_length
    · rw [impl_of_allocFails os op bus address wr_data wr_length rd_length hf]
      simp [I2CLUA_ERR_ALLOC, I2CLUA_ERR_DEV]
    · by_cases hfd : openResult os bus < 0
      · rw [impl_of_openFails os op bus address wr_data wr_length rd_length hf hfd]
        simp [I2CLUA_ERR_BUS, I2CLUA_ERR_DEV, hmem, hmem2]
      · rw [impl_of_open os op bus address wr_data wr_length rd_length hf (by omega)]
        by_cases hr : (os.sys_ioctl (openResult os bus) I2C_RDWR
            (request os op address wr_data wr_length rd_length)).ret =
            ((request os op address wr_data wr_length rd_length).nmsgs : Int)
        · simp [hr, I2CLUA_ERR_DEV, I2CLUA_SUCCESS, hmem, hmem2]
          intro fd rq data ret _ _ h3 h4
          rw [h4, h3]
        · simp only [if_neg hr, true_iff]
          refine ⟨openResult os bus, I2C_RDWR, request os op address wr_data wr_length rd_length,
            _, ?_, hr⟩
          simp
  · by_cases hf : allocFails os rd_length
    · rw [impl_of_allocFails os op bus address wr_data wr_length rd_length hf]
      simp [I2CLUA_ERR_ALLOC, I2CLUA_ERR_BUS]
    · by_cases hfd : openResult os bus < 0
      · rw [impl_of_openFails os op bus address wr_data wr_length rd_length hf hfd]
        simp only [true_iff]
        exact ⟨devPath bus, O_RDWR, openResult os bus, by simp, hfd⟩
      · rw [impl_of_open os op bus address wr_data wr_length rd_length hf (by omega)]
        have hne : (if (os.sys_ioctl (openResult os bus) I2C_RDWR
            (request os op address wr_data wr_length rd_length)).ret =
            ((request os op address wr_data wr_length rd_length).nmsgs : Int)
            then I2CLUA_SUCCESS else I2CLUA_ERR_DEV) ≠ I2CLUA_ERR_BUS := by
          split <;> decide
        simp only [hne, false_iff]
        rintro ⟨path, flags, fd, hmemb, hneg⟩
        simp [hmem3, hmem4] at hmemb
        omega
  · by_cases hf : allocFails os rd_length
    · rw [impl_of_allocFails os op bus address wr_data wr_length rd_length hf]
      simp
    · have hnone : ∀ n, Event.malloc n none ∉ mallocCalls os rd_length := by
        intro n h
        exact hf ((mem_mallocCalls_none os rd_length n).1 h).2
      by_cases hfd : openResult os bus < 0
      · rw [impl_of_openFails os op bus address wr_data wr_length rd_length hf hfd]
        simp [I2CLUA_ERR_BUS, I2CLUA_ERR_ALLOC, hnone, hmem5]
      · rw [impl_of_open os op bus address wr_data wr_length rd_length hf (by omega)]
        have hne : (if (os.sys_ioctl (openResult os bus) I2C_RDWR
            (request os op address wr_data wr_length rd_length)).ret =
            ((request os op address wr_data wr_length rd_length).nmsgs : Int)
            then I2CLUA_SUCCESS else I2CLUA_ERR_DEV) ≠ I2CLUA_ERR_ALLOC := by
          split <;> decide
        simp [hne, hnone, hmem5]
  · by_cases hf : allocFails os rd_length
    · rw [impl_of_allocFails os op bus address wr_data wr_length rd_length hf]
      simp [I2CLUA_ERR_ALLOC, I2CLUA_ERR_PARAM]
    · by_cases hfd : openResult os bus < 0
      · rw [impl_of_openFails os op bus address wr_data wr_length rd_length hf hfd]
        simp [I2CLUA_ERR_BUS, I2CLUA_ERR_PARAM]
      · rw [impl_of_open os op bus address wr_data wr_length rd_length hf (by omega)]
        simp only
        split <;> simp [I2CLUA_SUCCESS, I2CLUA_ERR_DEV, I2CLUA_ERR_PARAM]

/-- C4: a request whose operation includes Read returns two values, the code
and the payload; on SUCCESS the payload is the string of the bytes of the read
buffer as the ioctl left it, which are exactly `rd_length` bytes (the empty
string, not nil, for `rd_length = 0`), and on every other code the payload is
nil.  A request whose operation does not include Read returns the code alone. -/
theorem read_payload (os : MockOS) (op : Nat) (bus address : Int) (wr_data : Ptr)
    (wr_length rd_length : Nat) :
    (op &&& I2CLUA_OP_RD ≠ 0 →
      (i2clua_impl os op bus address wr_data wr_length rd_length).nresults = 2 ∧
      ((i2clua_impl os op bus address wr_data wr_length rd_length).rc = I2CLUA_SUCCESS →
        results (i2clua_impl os op bus address wr_data wr_length rd_length) =
          [LuaValue.number I2CLUA_SUCCESS,
           LuaValue.string
             (contents (i2clua_impl os op bus address wr_data wr_length rd_length).rdbuf)] ∧
        (contents (i2clua_impl os op bus address wr_data wr_length rd_length).rdbuf).length =
          rd_length) ∧
      ((i2clua_impl os op bus address wr_data wr_length rd_length).rc ≠ I2CLUA_SUCCESS →
        results (i2clua_impl os op bus address wr_data wr_length rd_length) =
          [LuaValue.number (i2clua_impl os op bus address wr_data wr_length rd_length).rc,
           LuaValue.nil])) ∧
    (op &&& I2CLUA_OP_RD = 0 →
      (i2clua_impl os op bus address wr_data wr_length rd_length).nresults = 1 ∧
      results (i2clua_impl os op bus address wr_data wr_length rd_length) =
        [LuaValue.number (i2clua_impl os op bus address wr_data wr_length rd_length).rc]) := by
  by_cases hf : allocFails os rd_length
  · rw [impl_of_allocFails os op bus address wr_data wr_length rd_length hf]
    constructor
    · intro hrd
      simp [results, hrd, I2CLUA_ERR_ALLOC, I2CLUA_SUCCESS]
    · intro hrd
      simp [results, hrd]
  · by_cases hfd : openResult os bus < 0
    · rw [impl_of_openFails os op bus address wr_data wr_length rd_length hf hfd]
      constructor
      · intro hrd
        simp [results, hrd, I2CLUA_ERR_BUS, I2CLUA_SUCCESS]
      · intro hrd
        simp [results, hrd]
    · rw [impl_of_open os op bus address wr_data wr_length rd_length hf (by omega)]
      have hlen := contents_afterIoctl_length
        (request os op address wr_data wr_length rd_length)
        (os.sys_ioctl (openResult os bus) I2C_RDWR
          (request os op address wr_data wr_length rd_length)).rx
        (readBuffer os rd_length)
      rw [readBuffer_length os rd_length hf] at hlen
      constructor
      · intro hrd
        by_cases hr : (os.sys_ioctl (openResult os bus) I2C_RDWR
            (request os op address wr_data wr_length rd_length)).ret =
            ((request os op address wr_data wr_length rd_length).nmsgs : Int)
        · simp only [if_pos hr, if_pos hrd]
          refine ⟨trivial, fun _ => ⟨?_, hlen⟩, fun h => absurd rfl h⟩
          simp [results, List.take_of_length_le (le_of_eq hlen)]
        · simp [results, hrd, hr, I2CLUA_ERR_DEV, I2CLUA_SUCCESS]
      · intro hrd
        simp [results, hrd]

/-- C8: for every request made through `write`, `read` or `writeread` (at
least the two mandatory arguments given; a write has read length 0), and for
every outcome of `malloc`, `open` and the ioctl: `malloc` is called if and only
if the read length is positive and the operation includes Read; a block
obtained is released by exactly one `free`, which is the last call before the
function returns, on every exit path; when `malloc` fails, or no buffer is
asked for, `free` is not called. -/
theorem read_buffer_lifetime (os : MockOS) (L : lua_State) (hargc : 2 ≤ lua_gettop L) :
    ∃ ow ord owr,
      i2clua_write os L = LuaCall.returned ow ∧
      i2clua_read os L = LuaCall.returned ord ∧
      i2clua_writeread os L = LuaCall.returned owr ∧
      ∀ (op read_length : Nat) (o : Outcome),
        ((op = I2CLUA_OP_WR ∧ read_length = 0 ∧ o = ow) ∨
         (op = I2CLUA_OP_RD ∧
           read_length = (if lua_gettop L < 3 then 0 else toSizeT (lua_tointeger L 3)) ∧
           o = ord) ∨
         (op = I2CLUA_OP_WR ||| I2CLUA_OP_RD ∧
           read_length = (if lua_gettop L < 4 then 0 else toSizeT (lua_tointeger L 4)) ∧
           o = owr)) →
        ((∃ n r, Event.malloc n r ∈ o.trace) ↔
          (0 < read_length ∧ op &&& I2CLUA_OP_RD ≠ 0)) ∧
        (∀ a, 0 < read_length → op &&& I2CLUA_OP_RD ≠ 0 →
          os.sys_malloc read_length = some a →
          heapCalls o.trace = [Event.malloc read_length (some a.addr), Event.free a.addr] ∧
          o.trace.getLast? = some (Event.free a.addr)) ∧
        (allocFails os read_length → heapCalls o.trace = [Event.malloc read_length none]) ∧
        (¬ (0 < read_length ∧ op &&& I2CLUA_OP_RD ≠ 0) → heapCalls o.trace = []) := by
  have hnot : ¬ lua_gettop L < 2 := by omega
  have hw : i2clua_write os L = LuaCall.returned (i2clua_impl os I2CLUA_OP_WR
      (toInt32 (lua_tointeger L 1)) (toInt32 (lua_tointeger L 2))
      (if lua_gettop L < 3 then ((none : Ptr), 0) else lua_tolstring L 3).1
      (if lua_gettop L < 3 then ((none : Ptr), 0) else lua_tolstring L 3).2 0) := by
    unfold i2clua_write
    simp only [hnot, if_false]
  have hr : i2clua_read os L = LuaCall.returned (i2clua_impl os I2CLUA_OP_RD
      (toInt32 (lua_tointeger L 1)) (toInt32 (lua_tointeger L 2)) none 0
      (if lua_gettop L < 3 then 0 else toSizeT (lua_tointeger L 3))) := by
    unfold i2clua_read
    simp only [hnot, if_false]
  have hwr : i2clua_writeread os L = LuaCall.returned (i2clua_impl os
      (I2CLUA_OP_WR ||| I2CLUA_OP_RD)
      (toInt32 (lua_tointeger L 1)) (toInt32 (lua_tointeger L 2))
      (if lua_gettop L < 3 then ((none : Ptr), 0) else lua_tolstring L 3).1
      (if lua_gettop L < 3 then ((none : Ptr), 0) else lua_tolstring L 3).2
      (if lua_gettop L < 4 then 0 else toSizeT (lua_tointeger L 4))) := by
    unfold i2clua_writeread
    simp only [hnot, if_false]
  have hbitR : I2CLUA_OP_RD &&& I2CLUA_OP_RD ≠ 0 := by decide
  have hbitWR : (I2CLUA_OP_WR ||| I2CLUA_OP_RD) &&& I2CLUA_OP_RD ≠ 0 := by decide
  refine ⟨_, _, _, hw, hr, hwr, ?_⟩
  rintro op read_length o (⟨rfl, rfl, rfl⟩ | ⟨rfl, rfl, rfl⟩ | ⟨rfl, rfl, rfl⟩)
  · obtain ⟨h1, -, -, h4⟩ := heap_calls_of_impl os I2CLUA_OP_WR
      (toInt32 (lua_tointeger L 1)) (toInt32 (lua_tointeger L 2))
      (if lua_gettop L < 3 then ((none : Ptr), 0) else lua_tolstring L 3).1
      (if lua_gettop L < 3 then ((none : Ptr), 0) else lua_tolstring L 3).2 0
    refine ⟨?_, ?_, ?_, ?_⟩
    · rw [h1]
      simp
    · intro a hpos
      exact absurd hpos (by decide)
    · intro hf
      exact absurd hf.1 (by decide)
    · intro _
      exact h4 rfl
  · obtain ⟨h1, h2, h3, h4⟩ := heap_calls_of_impl os I2CLUA_OP_RD
      (toInt32 (lua_tointeger L 1)) (toInt32 (lua_tointeger L 2)) none 0
      (if lua_gettop L < 3 then 0 else toSizeT (lua_tointeger L 3))
    refine ⟨?_, ?_, h3, ?_⟩
    · rw [h1]
      exact (and_iff_left hbitR).symm
    · intro a hpos _ hm
      exact h2 a hpos hm
    · intro hn
      apply h4
      by_contra h0
      exact hn ⟨Nat.pos_of_ne_zero h0, hbitR⟩
  · obtain ⟨h1, h2, h3, h4⟩ := heap_calls_of_impl os (I2CLUA_OP_WR ||| I2CLUA_OP_RD)
      (toInt32 (lua_tointeger L 1)) (toInt32 (lua_tointeger L 2))
      (if lua_gettop L < 3 then ((none : Ptr), 0) else lua_tolstring L 3).1
      (if lua_gettop L < 3 then ((none : Ptr), 0) else lua_tolstring L 3).2
      (if lua_gettop L < 4 then 0 else toSizeT (lua_tointeger L 4))
    refine ⟨?_, ?_, h3, ?_⟩
    · rw [h1]
      exact (and_iff_left hbitWR).symm
    · intro a hpos _ hm
      exact h2 a hpos hm
    · intro hn
      apply h4
      by_contra h0
      exact hn ⟨Nat.pos_of_ne_zero h0, hbitWR⟩

/-- Message list within the 16-bit length field: over a mock in which
allocation and `open` succeed, for an 8-bit address, a write payload shorter
than 65536 bytes and a read length below 65536, each entry point issues
exactly one ioctl.  For `write` it
submits the single message (addr = address, flags = 0, buf = the payload,
len = length of the payload); for `read` the single message (addr = address,
flags = I2C_M_RD, buf = the read buffer, null when the read length is 0,
len = read length); for `writeread` these two messages with `nmsgs = 2`, the
write message first. -/
theorem message_list (os : MockOS) (pos : List Char) (b a w r : LuaArg) (payload : Block)
    (address rd : Nat) (haddr : address < 256) (ha : a.tointeger = address)
    (hw : w.tolstring = some payload) (hlen : payload.bytes.length < 65536)
    (hrd : rd < 65536) (hr : r.tointeger = rd)
    (halloc : ¬ allocFails os rd) (hopen : 0 ≤ openResult os (toInt32 b.tointeger)) :
    (∃ o d ret, i2clua_write os { stack := [b, a, w], position := pos } = LuaCall.returned o ∧
      ioctlCalls o.trace = [Event.ioctl (openResult os (toInt32 b.tointeger)) I2C_RDWR d ret] ∧
      d.nmsgs = 1 ∧
      submitted d =
        [{ addr := address, flags := 0, buf := some payload, len := payload.bytes.length }]) ∧
    (∃ o d ret, i2clua_read os { stack := [b, a, r], position := pos } = LuaCall.returned o ∧
      ioctlCalls o.trace = [Event.ioctl (openResult os (toInt32 b.tointeger)) I2C_RDWR d ret] ∧
      d.nmsgs = 1 ∧
      submitted d =
        [{ addr := address, flags := I2C_M_RD, buf := readBuffer os rd, len := rd }]) ∧
    (∃ o d ret,
      i2clua_writeread os { stack := [b, a, w, r], position := pos } = LuaCall.returned o ∧
      ioctlCalls o.trace = [Event.ioctl (openResult os (toInt32 b.tointeger)) I2C_RDWR d ret] ∧
      d.nmsgs = 2 ∧
      submitted d =
        [{ addr := address, flags := 0, buf := some payload, len := payload.bytes.length },
         { addr := address, flags := I2C_M_RD, buf := readBuffer os rd, len := rd }]) := by
  have h0 : ¬ allocFails os 0 := fun h => absurd h.1 (by decide)
  have hwl : payload.bytes.length % 65536 = payload.bytes.length := Nat.mod_eq_of_lt hlen
  have hrl : rd % 65536 = rd := Nat.mod_eq_of_lt hrd
  have hsz : toSizeT (rd : Int) = rd := toSizeT_small rd hrd
  have had : toU16 (toInt32 (address : Int)) = address := toU16_toInt32_small address haddr
  have hwcall : i2clua_write os { stack := [b, a, w], position := pos } =
      LuaCall.returned (i2clua_impl os I2CLUA_OP_WR (toInt32 b.tointeger)
        (toInt32 (address : Int)) (some payload) payload.bytes.length 0) := by
    simp [i2clua_write, lua_gettop, lua_tointeger, lua_tolstring, hw, ha]
  have hrcall : i2clua_read os { stack := [b, a, r], position := pos } =
      LuaCall.returned (i2clua_impl os I2CLUA_OP_RD (toInt32 b.tointeger)
        (toInt32 (address : Int)) none 0 rd) := by
    simp [i2clua_read, lua_gettop, lua_tointeger, hr, ha, hsz]
  have hwrcall : i2clua_writeread os { stack := [b, a, w, r], position := pos } =
      LuaCall.returned (i2clua_impl os (I2CLUA_OP_WR ||| I2CLUA_OP_RD) (toInt32 b.tointeger)
        (toInt32 (address : Int)) (some payload) payload.bytes.length rd) := by
    simp [i2clua_writeread, lua_gettop, lua_tointeger, lua_tolstring, hw, hr, ha, hsz]
  refine ⟨⟨_, _, _, hwcall, ioctlCalls_impl_of_open os _ _ _ _ _ _ h0 hopen, ?_, ?_⟩,
    ⟨_, _, _, hrcall, ioctlCalls_impl_of_open os _ _ _ _ _ _ halloc hopen, ?_, ?_⟩,
    ⟨_, _, _, hwrcall, ioctlCalls_impl_of_open os _ _ _ _ _ _ halloc hopen, ?_, ?_⟩⟩
  · simp [request, ioctlData, I2CLUA_OP_WR, I2CLUA_OP_RD]
  · simp [request, ioctlData, submitted, I2CLUA_OP_WR, I2CLUA_OP_RD, had, hwl, readBuffer]
  · simp [request, ioctlData, I2CLUA_OP_WR, I2CLUA_OP_RD]
  · simp [request, ioctlData, submitted, I2CLUA_OP_WR, I2CLUA_OP_RD, had, hrl]
  · simp [request, ioctlData, I2CLUA_OP_WR, I2CLUA_OP_RD]
  · simp [request, ioctlData, submitted, I2CLUA_OP_WR, I2CLUA_OP_RD, had, hwl, hrl]

/-- The call `writeread` with the payload "AB" and read length 3 issues one
ioctl with two messages, of lengths 2 and 3, the first one carrying "AB". -/
theorem message_list_witness :
    ∃ o d ret,
      i2clua_writeread (stubOS true 3 2)
        { stack := [intArg 1, intArg 80, strArg "AB".toList, intArg 3], position := [] } =
        LuaCall.returned o ∧
      ioctlCalls o.trace = [Event.ioctl 3 I2C_RDWR d ret] ∧
      d.nmsgs = 2 ∧
      (submitted d).map i2c_msg.len = [2, 3] ∧
      (submitted d).map i2c_msg.flags = [0, I2C_M_RD] ∧
      (submitted d).head?.map (fun m => contents m.buf) = some "AB".toList := by
  obtain ⟨o, d, ret, hcall, htrace, hn, hsub⟩ :=
    (message_list (stubOS true 3 2) [] (intArg 1) (intArg 80) (strArg "AB".toList) (intArg 3)
      { addr := 256, bytes := "AB".toList } 80 3 (by decide) rfl rfl (by decide) (by decide) rfl
      (by decide) (by decide)).2.2
  refine ⟨o, d, ret, hcall, htrace, hn, ?_, ?_, ?_⟩ <;> rw [hsub] <;> rfl

/-- C1, the code at the failing input: `write(1, 80, payload)` with a payload
of 65536 bytes on the stub system.  One ioctl is issued; the write message it
submits has `len = 0`, not the length of the payload, so no byte of the
payload is sent, and the call reports SUCCESS. -/
theorem write_length_truncated :
    bigPayload.length = 65536 ∧
    ∃ o d ret,
      i2clua_write (stubOS true 3 1)
        { stack := [intArg 1, intArg 80, strArg bigPayload], position := [] } =
        LuaCall.returned o ∧
      ioctlCalls o.trace = [Event.ioctl 3 I2C_RDWR d ret] ∧
      d.nmsgs = 1 ∧
      submitted d =
        [{ addr := 80, flags := 0, buf := some { addr := 256, bytes := bigPayload }, len := 0 }] ∧
      results o = [LuaValue.number I2CLUA_SUCCESS] := by
  have hlen : bigPayload.length = 65536 := List.length_replicate 65536 'A'
  have h0 : ¬ allocFails (stubOS true 3 1) 0 := fun h => absurd h.1 (by decide)
  have hfd : 0 ≤ openResult (stubOS true 3 1) (toInt32 1) := by
    show (0 : Int) ≤ 3
    decide
  have hcall : i2clua_write (stubOS true 3 1)
        { stack := [intArg 1, intArg 80, strArg bigPayload], position := [] } =
      LuaCall.returned (i2clua_impl (stubOS true 3 1) I2CLUA_OP_WR (toInt32 1) (toInt32 80)
        (some { addr := 256, bytes := bigPayload }) bigPayload.length 0) := by
    simp [i2clua_write, lua_gettop, lua_tointeger, lua_tolstring, intArg, strArg]
  have h80 : toU16 (toInt32 80) = 80 := by decide
  refine ⟨hlen, _, _, _, hcall,
    ioctlCalls_impl_of_open (stubOS true 3 1) _ _ _ _ _ _ h0 hfd, ?_, ?_, ?_⟩
  · simp [request, ioctlData, I2CLUA_OP_WR, I2CLUA_OP_RD]
  · simp [request, ioctlData, submitted, I2CLUA_OP_WR, I2CLUA_OP_RD, hlen, h80, readBuffer]
  · rw [impl_of_open _ _ _ _ _ _ _ h0 hfd]
    simp [results, request, ioctlData, stubOS, toInt32, I2CLUA_OP_WR, I2CLUA_OP_RD,
      I2CLUA_SUCCESS]

/-- C5: called without raise, the translator returns one value, a string that
is a function of the code alone; it is "success" for 0, "I2C bus error" for
-1, "I2C device error (no ACK)" for -2, "I2C memory allocation failed" for -3
and "I2C: invalid parameter" for -4, five different strings; two calls with
the same code return the same string. -/
theorem known_code_translation :
    (∀ L : lua_State, 1 ≤ lua_gettop L → (lua_gettop L < 2 ∨ lua_toboolean L 2 = false) →
      i2clua_error L = LuaCall.returned ([errmsg (toInt32 (lua_tointeger L 1))], 1)) ∧
    errmsg I2CLUA_SUCCESS = LuaValue.string "success".toList ∧
    errmsg I2CLUA_ERR_BUS = LuaValue.string "I2C bus error".toList ∧
    errmsg I2CLUA_ERR_DEV = LuaValue.string "I2C device error (no ACK)".toList ∧
    errmsg I2CLUA_ERR_ALLOC = LuaValue.string "I2C memory allocation failed".toList ∧
    errmsg I2CLUA_ERR_PARAM = LuaValue.string "I2C: invalid parameter".toList ∧
    ["success", "I2C bus error", "I2C device error (no ACK)", "I2C memory allocation failed",
      "I2C: invalid parameter"].Nodup ∧
    (∀ L₁ L₂ : lua_State, 1 ≤ lua_gettop L₁ → 1 ≤ lua_gettop L₂ →
      (lua_gettop L₁ < 2 ∨ lua_toboolean L₁ 2 = false) →
      (lua_gettop L₂ < 2 ∨ lua_toboolean L₂ 2 = false) →
      toInt32 (lua_tointeger L₁ 1) = toInt32 (lua_tointeger L₂ 1) →
      i2clua_error L₁ = i2clua_error L₂) := by
  have main : ∀ L : lua_State, 1 ≤ lua_gettop L →
      (lua_gettop L < 2 ∨ lua_toboolean L 2 = false) →
      i2clua_error L = LuaCall.returned ([errmsg (toInt32 (lua_tointeger L 1))], 1) := by
    intro L hargc hraise
    have h1 : ¬ lua_gettop L < 1 := by omega
    unfold i2clua_error
    rcases hraise with h | h
    · simp [h1, h]
    · by_cases h2 : lua_gettop L < 2 <;> simp [h1, h2, h]
  refine ⟨main, by decide, by decide, by decide, by decide, by decide, by decide, ?_⟩
  intro L₁ L₂ a₁ a₂ r₁ r₂ hcode
  rw [main L₁ a₁ r₁, main L₂ a₂ r₂, hcode]

/-- C5, witness: `error(SUCCESS)` returns "success" and `error(ERR_BUS)`
returns "I2C bus error". -/
theorem known_code_translation_witness :
    i2clua_error { stack := [intArg 0], position := [] } =
      LuaCall.returned ([LuaValue.string "success".toList], 1) ∧
    i2clua_error { stack := [intArg (-1), boolArg false], position := [] } =
      LuaCall.returned ([LuaValue.string "I2C bus error".toList], 1) :=
  ⟨(known_code_translation.1 { stack := [intArg 0], position := [] } (by decide)
      (Or.inl (by decide))).trans (by decide),
   (known_code_translation.1 { stack := [intArg (-1), boolArg false], position := [] }
      (by decide) (Or.inr (by decide))).trans (by decide)⟩

/-- C7: with at least one argument, the translator raises an error exactly
when the code is not SUCCESS and raise is true (raise is false when the second
argument is omitted); the error value is the message the call returns without
raise, preceded by the position text of `luaL_error`; in every other case,
SUCCESS with raise included, the message is returned as the single result. -/
theorem raise_mode (L : lua_State) (hargc : 1 ≤ lua_gettop L) :
    ∃ msg, errmsg (toInt32 (lua_tointeger L 1)) = LuaValue.string msg ∧
      ((toInt32 (lua_tointeger L 1) ≠ I2CLUA_SUCCESS ∧
          (if lua_gettop L < 2 then false else lua_toboolean L 2) = true) →
        i2clua_error L = LuaCall.raised (L.position ++ msg)) ∧
      (¬ (toInt32 (lua_tointeger L 1) ≠ I2CLUA_SUCCESS ∧
          (if lua_gettop L < 2 then false else lua_toboolean L 2) = true) →
        i2clua_error L = LuaCall.returned ([LuaValue.string msg], 1)) ∧
      ((∃ e, i2clua_error L = LuaCall.raised e) ↔
        (toInt32 (lua_tointeger L 1) ≠ I2CLUA_SUCCESS ∧
          (if lua_gettop L < 2 then false else lua_toboolean L 2) = true)) := by
  obtain ⟨msg, hmsg, hfmt⟩ := errmsg_reformat (toInt32 (lua_tointeger L 1))
  have h1 : ¬ lua_gettop L < 1 := by omega
  have hraise : (toInt32 (lua_tointeger L 1) ≠ I2CLUA_SUCCESS ∧
      (if lua_gettop L < 2 then false else lua_toboolean L 2) = true) →
      i2clua_error L = LuaCall.raised (L.position ++ msg) := by
    intro h
    unfold i2clua_error
    simp only [h1, if_false, h.2, and_true, if_pos h.1, hmsg, luaL_error, lua_tostring, hfmt]
  have hret : ¬ (toInt32 (lua_tointeger L 1) ≠ I2CLUA_SUCCESS ∧
      (if lua_gettop L < 2 then false else lua_toboolean L 2) = true) →
      i2clua_error L = LuaCall.returned ([LuaValue.string msg], 1) := by
    intro h
    unfold i2clua_error
    simp only [h1, if_false, h, hmsg]
  refine ⟨msg, hmsg, hraise, hret, ?_⟩
  constructor
  · rintro ⟨e, he⟩
    by_contra hn
    rw [hret hn] at he
    cases he
  · intro h
    exact ⟨_, hraise h⟩

/-- C7, witness: `error(ERR_BUS, true)` raises an error carrying
"I2C bus error", and `error(SUCCESS, true)` returns "success". -/
theorem raise_mode_witness :
    i2clua_error { stack := [intArg (-1), boolArg true], position := [] } =
      LuaCall.raised "I2C bus error".toList ∧
    i2clua_error { stack := [intArg (-1), boolArg true], position := "t.lua:1: ".toList } =
      LuaCall.raised "t.lua:1: I2C bus error".toList ∧
    i2clua_error { stack := [intArg 0, boolArg true], position := [] } =
      LuaCall.returned ([LuaValue.string "success".toList], 1) := by
  obtain ⟨msg, hmsg, hraise, -, -⟩ :=
    raise_mode { stack := [intArg (-1), boolArg true], position := [] } (by decide)
  refine ⟨?_, by decide, by decide⟩
  rw [hraise (by decide)]
  have hm : msg = "I2C bus error".toList := by
    have h2 : errmsg (toInt32 (lua_tointeger
        { stack := [intArg (-1), boolArg true], position := [] } 1)) =
        LuaValue.string "I2C bus error".toList := by decide
    rw [hmsg] at h2
    exact LuaValue.string.inj h2
  rw [hm]
  rfl

/-- C6, the code at the failing input: `error(999)` returns the format text
itself, which does not contain "999"; every code outside 0, -1, -2, -3, -4
is translated to this one string, because `lua_pushfstring` of Lua 5.1 has no
conversion `%i`. -/
theorem unknown_code_not_embedded :
    i2clua_error { stack := [intArg 999], position := [] } =
      LuaCall.returned ([LuaValue.string "I2C: invalid result code (%i)".toList], 1) ∧
    ¬ ("999".toList <:+: "I2C: invalid result code (%i)".toList) ∧
    (∀ code : Int, code ≠ 0 → code ≠ -1 → code ≠ -2 → code ≠ -3 → code ≠ -4 →
      errmsg code = LuaValue.string "I2C: invalid result code (%i)".toList) ∧
    lua_pushfstring "I2C: invalid result code (%d)" [FmtArg.int 999] =
      LuaValue.string "I2C: invalid result code (999)".toList :=
  ⟨by decide, by decide, errmsg_unknown, by decide⟩

/-- C9, the code at the failing input: for bus 1000000000 the path handed to
`open` is "/dev/i2c-100000000", the formatted text cut to 18 characters, which
is the device node of bus 100000000; the size `sizeof(dev) - 1 = 19` given to
`snprintf` leaves room for 18 characters only.  A bus of up to nine digits is
formatted in full. -/
theorem device_path_truncated :
    devPath 1000000000 = "/dev/i2c-100000000".toList ∧
    devPath 1000000000 ≠ "/dev/i2c-".toList ++ fmt_d 1000000000 ∧
    devPath 1000000000 = devPath 100000000 ∧
    devPath (-2147483648) = "/dev/i2c--21474836".toList ∧
    devPath 999999999 = "/dev/i2c-".toList ++ fmt_d 999999999 ∧
    deviceCalls (i2clua_impl (stubOS true 3 1) I2CLUA_OP_WR 1000000000 80 none 0 0).trace =
      [Event.openDev "/dev/i2c-100000000".toList O_RDWR 3,
       Event.ioctl 3 I2C_RDWR (request (stubOS true 3 1) I2CLUA_OP_WR 80 none 0 0) 1,
       Event.close 3] := by
  refine ⟨by decide, by decide, by decide, by decide, by decide, ?_⟩
  decide

/-- A read of `n > 0` bytes with `n` a multiple of 65536 on the stub system:
the read message asks the device for `n % 65536 = 0` bytes, the transfer
succeeds, and the payload returned is the `n` bytes `malloc` left in the
block. -/
theorem read_multiple_of_65536 (bus address : Int) (n : Nat) (hpos : 0 < n)
    (hmod : n % 65536 = 0) :
    ioctlCalls (i2clua_impl (stubOS true 3 1) I2CLUA_OP_RD bus address none 0 n).trace =
      [Event.ioctl 3 I2C_RDWR
        { nmsgs := 1,
          msgs := [{ addr := toU16 address, flags := I2C_M_RD, len := 0,
                     buf := some { addr := 4096, bytes := List.replicate n '?' } }] }
        1] ∧
    results (i2clua_impl (stubOS true 3 1) I2CLUA_OP_RD bus address none 0 n) =
      [LuaValue.number I2CLUA_SUCCESS, LuaValue.string (List.replicate n '?')] := by
  have hf : ¬ allocFails (stubOS true 3 1) n := fun h => by
    have h2 := h.2
    simp [stubOS] at h2
  have hfd : 0 ≤ openResult (stubOS true 3 1) bus := by
    show (0 : Int) ≤ 3
    decide
  have hbuf : readBuffer (stubOS true 3 1) n =
      some { addr := 4096, bytes := List.replicate n '?' } := by
    simp [readBuffer, stubOS, hpos, freshBlock]
  have hreq : request (stubOS true 3 1) I2CLUA_OP_RD address none 0 n =
      { nmsgs := 1,
        msgs := [{ addr := toU16 address, flags := I2C_M_RD, len := 0,
                   buf := some { addr := 4096, bytes := List.replicate n '?' } }] } := by
    simp [request, ioctlData, I2CLUA_OP_WR, I2CLUA_OP_RD, hbuf, hmod]
  have hret : ioctlReturn (stubOS true 3 1) I2CLUA_OP_RD bus address none 0 n = 1 := by
    simp [ioctlReturn, stubOS, toInt32]
  constructor
  · rw [ioctlCalls_impl_of_open _ _ _ _ _ _ _ hf hfd, hreq, hret]
    rfl
  · rw [impl_of_open _ _ _ _ _ _ _ hf hfd]
    simp only [hreq, hbuf, results]
    simp [stubOS, toInt32, I2CLUA_OP_RD, I2CLUA_SUCCESS, afterIoctl, submitted, I2C_M_RD,
      contents, copy_to_user]

/-- C10, the code at the failing input: `read(1, 80, 65536)` on the stub
system, whose device delivers `Z` bytes.  The read message submitted has
`len = 0`, not 65536; the call reports SUCCESS and returns 65536 bytes, all of
them the `?` bytes `malloc` left in the block and none delivered by the
device. -/
theorem read_length_truncated :
    ∃ o, i2clua_read (stubOS true 3 1)
        { stack := [intArg 1, intArg 80, intArg 65536], position := [] } = LuaCall.returned o ∧
      ioctlCalls o.trace =
        [Event.ioctl 3 I2C_RDWR
          { nmsgs := 1,
            msgs := [{ addr := 80, flags := I2C_M_RD, len := 0,
                       buf := some { addr := 4096, bytes := List.replicate 65536 '?' } }] }
          1] ∧
      results o = [LuaValue.number I2CLUA_SUCCESS, LuaValue.string (List.replicate 65536 '?')] ∧
      (List.replicate 65536 '?').length = 65536 := by
  have hcall : i2clua_read (stubOS true 3 1)
        { stack := [intArg 1, intArg 80, intArg 65536], position := [] } =
      LuaCall.returned (i2clua_impl (stubOS true 3 1) I2CLUA_OP_RD (toInt32 1) (toInt32 80)
        none 0 65536) := by
    have hsz : toSizeT 65536 = 65536 := by decide
    simp [i2clua_read, lua_gettop, lua_tointeger, intArg, hsz]
  obtain ⟨h1, h2⟩ := read_multiple_of_65536 (toInt32 1) (toInt32 80) 65536 (by decide) (by decide)
  have h80 : toU16 (toInt32 80) = 80 := by decide
  rw [h80] at h1
  exact ⟨_, hcall, h1, h2, List.length_replicate _ _⟩

/-- C2, witness: on the stub system a read of 4 bytes ends with ERR_ALLOC when
`malloc` fails, ERR_BUS when `open` returns -1, ERR_DEV when the ioctl returns
-1, and SUCCESS when the ioctl returns 1. -/
theorem result_code_witness :
    (i2clua_impl (stubOS false 3 1) I2CLUA_OP_RD 1 80 none 0 4).rc = I2CLUA_ERR_ALLOC ∧
    (i2clua_impl (stubOS true (-1) 1) I2CLUA_OP_RD 1 80 none 0 4).rc = I2CLUA_ERR_BUS ∧
    (i2clua_impl (stubOS true 3 (-1)) I2CLUA_OP_RD 1 80 none 0 4).rc = I2CLUA_ERR_DEV ∧
    (i2clua_impl (stubOS true 3 2) I2CLUA_OP_RD 1 80 none 0 4).rc = I2CLUA_ERR_DEV ∧
    (i2clua_impl (stubOS true 3 1) I2CLUA_OP_RD 1 80 none 0 4).rc = I2CLUA_SUCCESS :=
  ⟨(result_code (stubOS false 3 1) I2CLUA_OP_RD 1 80 none 0 4).1.trans (by decide),
   (result_code (stubOS true (-1) 1) I2CLUA_OP_RD 1 80 none 0 4).1.trans (by decide),
   (result_code (stubOS true 3 (-1)) I2CLUA_OP_RD 1 80 none 0 4).1.trans (by decide),
   (result_code (stubOS true 3 2) I2CLUA_OP_RD 1 80 none 0 4).1.trans (by decide),
   (result_code (stubOS true 3 1) I2CLUA_OP_RD 1 80 none 0 4).1.trans (by decide)⟩

/-- C3, witness: on the stub system a read of 4 bytes makes no call on the
device when `malloc` fails, only the `open` when `open` returns -1, and
`open`, `ioctl`, `close` when the ioctl returns -1. -/
theorem device_call_sequence_witness :
    deviceCalls (i2clua_impl (stubOS false 3 1) I2CLUA_OP_RD 1 80 none 0 4).trace = [] ∧
    deviceCalls (i2clua_impl (stubOS true (-1) 1) I2CLUA_OP_RD 1 80 none 0 4).trace =
      [Event.openDev "/dev/i2c-1".toList O_RDWR (-1)] ∧
    deviceCalls (i2clua_impl (stubOS true 3 (-1)) I2CLUA_OP_RD 1 80 none 0 4).trace =
      [Event.openDev "/dev/i2c-1".toList O_RDWR 3,
       Event.ioctl 3 I2C_RDWR
         { nmsgs := 1,
           msgs := [{ addr := 80, flags := I2C_M_RD, len := 4,
                      buf := some { addr := 4096, bytes := "????".toList } }] }
         (-1),
       Event.close 3] :=
  ⟨(device_call_sequence (stubOS false 3 1) I2CLUA_OP_RD 1 80 none 0 4).1.trans (by decide),
   (device_call_sequence (stubOS true (-1) 1) I2CLUA_OP_RD 1 80 none 0 4).1.trans (by decide),
   (device_call_sequence (stubOS true 3 (-1)) I2CLUA_OP_RD 1 80 none 0 4).1.trans (by decide)⟩

/-- C4, witness: on the stub system a successful read of 0 bytes returns
SUCCESS and the empty string, a successful read of 5 bytes returns the 5 bytes
the device delivered, a read on a bus that cannot be opened returns ERR_BUS
and nil, and a write returns the code alone. -/
theorem read_payload_witness :
    results (i2clua_impl (stubOS true 3 1) I2CLUA_OP_RD 1 80 none 0 0) =
      [LuaValue.number I2CLUA_SUCCESS, LuaValue.string []] ∧
    results (i2clua_impl (stubOS true 3 1) I2CLUA_OP_RD 1 80 none 0 5) =
      [LuaValue.number I2CLUA_SUCCESS, LuaValue.string "ZZZZZ".toList] ∧
    results (i2clua_impl (stubOS true (-1) 1) I2CLUA_OP_RD 1 80 none 0 5) =
      [LuaValue.number I2CLUA_ERR_BUS, LuaValue.nil] ∧
    results (i2clua_impl (stubOS true 3 1) I2CLUA_OP_WR 1 80 none 0 0) =
      [LuaValue.number I2CLUA_SUCCESS] :=
  ⟨(((read_payload (stubOS true 3 1) I2CLUA_OP_RD 1 80 none 0 0).1 (by decide)).2.1
      (by decide)).1.trans (by decide),
   (((read_payload (stubOS true 3 1) I2CLUA_OP_RD 1 80 none 0 5).1 (by decide)).2.1
      (by decide)).1.trans (by decide),
   (((read_payload (stubOS true (-1) 1) I2CLUA_OP_RD 1 80 none 0 5).1 (by decide)).2.2
      (by decide)).trans (by decide),
   ((read_payload (stubOS true 3 1) I2CLUA_OP_WR 1 80 none 0 0).2 (by decide)).2.trans
      (by decide)⟩

/-- C8, witness: on the stub system `read(1, 80, 4)` on a bus that cannot be
opened ends with ERR_BUS, allocates the buffer and frees it once. -/
theorem read_buffer_lifetime_witness :
    ∃ o, i2clua_read (stubOS true (-1) 1)
        { stack := [intArg 1, intArg 80, intArg 4], position := [] } = LuaCall.returned o ∧
      heapCalls o.trace = [Event.malloc 4 (some 4096), Event.free 4096] ∧
      o.trace.getLast? = some (Event.free 4096) := by
  obtain ⟨ow, ord, owr, -, hr, -, h⟩ := read_buffer_lifetime (stubOS true (-1) 1)
    { stack := [intArg 1, intArg 80, intArg 4], position := [] } (by decide)
  exact ⟨ord, hr, (h I2CLUA_OP_RD 4 ord (Or.inr (Or.inl ⟨rfl, by decide, rfl⟩))).2.1
    { addr := 4096, garbage := fun _ => '?' } (by decide) (by decide) rfl⟩

/-! ## Further properties -/

theorem toDigitsCore_length_le (fuel : Nat) :
    ∀ (n k : Nat) (acc : List Char), n < 10 ^ (k + 1) →
      (Nat.toDigitsCore 10 fuel n acc).length ≤ acc.length + k + 1 := by
  induction fuel with
  | zero =>
      intro n k acc _
      simp [Nat.toDigitsCore]
      omega
  | succ fuel ih =>
      intro n k acc hn
      unfold Nat.toDigitsCore
      by_cases h0 : n / 10 = 0
      · simp [h0]
      · simp only [h0, if_false]
        cases k with
        | zero =>
            exfalso
            apply h0
            simp at hn
            omega
        | succ k =>
            have hn2 : n / 10 < 10 ^ (k + 1) := by
              rw [Nat.div_lt_iff_lt_mul (by decide)]
              rw [Nat.pow_succ] at hn
              exact hn
            have := ih (n / 10) k (Nat.digitChar (n % 10) :: acc) hn2
            simp only [List.length_cons] at this
            omega

theorem repr_length_le (n k : Nat) (hn : n < 10 ^ (k + 1)) :
    (Nat.repr n).toList.length ≤ k + 1 := by
  have h := toDigitsCore_length_le (n + 1) n k [] hn
  simpa [Nat.repr, Nat.toDigits, List.asString] using h

/-- The path is the full text "/dev/i2c-" followed by the decimal bus number
whenever that number has at most nine characters, that is for
`-99999999 ≤ bus ≤ 999999999`. -/
theorem device_path_exact (bus : Int) (hlo : -99999999 ≤ bus) (hhi : bus ≤ 999999999) :
    devPath bus = "/dev/i2c-".toList ++ fmt_d bus := by
  have hlen : (fmt_d bus).length ≤ 9 := by
    cases bus with
    | ofNat m =>
        have hm : m < 10 ^ (8 + 1) := by
          have : (m : Int) ≤ 999999999 := hhi
          norm_num
          omega
        exact repr_length_le m 8 hm
    | negSucc m =>
        have hm : m + 1 < 10 ^ (7 + 1) := by
          have : -99999999 ≤ -((m : Int) + 1) := by
            rw [← Int.negSucc_eq]
            exact hlo
          norm_num
          omega
        have := repr_length_le (m + 1) 7 hm
        simp only [fmt_d, List.length_cons]
        omega
  unfold devPath snprintf
  apply List.take_of_length_le
  have h9 : "/dev/i2c-".toList.length = 9 := by decide
  rw [List.length_append, h9]
  omega

/-- The device path of bus 1 is "/dev/i2c-1" and that of bus -5 is
"/dev/i2c--5". -/
theorem device_path_exact_witness :
    devPath 1 = "/dev/i2c-1".toList ∧ devPath (-5) = "/dev/i2c--5".toList :=
  ⟨(device_path_exact 1 (by decide) (by decide)).trans (by decide),
   (device_path_exact (-5) (by decide) (by decide)).trans (by decide)⟩

/-- Called with fewer than two arguments, each transfer entry point raises its
usage message and makes no transfer; the translator does so with no argument
at all. -/
theorem missing_arguments (os : MockOS) (L : lua_State) (h : lua_gettop L < 2) :
    i2clua_writeread os L = LuaCall.raised (L.position ++
      "Missing arguments. Usage: result, read_data = writeread(bus, address [, write_data [, read_length]])".toList) ∧
    i2clua_write os L = LuaCall.raised (L.position ++
      "Missing arguments. Usage: result = write(bus, address [, write_data])".toList) ∧
    i2clua_read os L = LuaCall.raised (L.position ++
      "Missing arguments. Usage: result, read_data = read(bus, address [, read_length])".toList) ∧
    (lua_gettop L < 1 → i2clua_error L = LuaCall.raised (L.position ++
      "Missing arguments. Usage: errmsg = error(result [, raise])".toList)) := by
  have e1 : lua_pushvfstring false
      "Missing arguments. Usage: result, read_data = writeread(bus, address [, write_data [, read_length]])".toList [] =
      "Missing arguments. Usage: result, read_data = writeread(bus, address [, write_data [, read_length]])".toList := by
    decide
  have e2 : lua_pushvfstring false
      "Missing arguments. Usage: result = write(bus, address [, write_data])".toList [] =
      "Missing arguments. Usage: result = write(bus, address [, write_data])".toList := by
    decide
  have e3 : lua_pushvfstring false
      "Missing arguments. Usage: result, read_data = read(bus, address [, read_length])".toList [] =
      "Missing arguments. Usage: result, read_data = read(bus, address [, read_length])".toList := by
    decide
  have e4 : lua_pushvfstring false
      "Missing arguments. Usage: errmsg = error(result [, raise])".toList [] =
      "Missing arguments. Usage: errmsg = error(result [, raise])".toList := by
    decide
  refine ⟨?_, ?_, ?_, ?_⟩
  · unfold i2clua_writeread luaL_error
    rw [if_pos h, e1]
  · unfold i2clua_write luaL_error
    rw [if_pos h, e2]
  · unfold i2clua_read luaL_error
    rw [if_pos h, e3]
  · intro h1
    unfold i2clua_error luaL_error
    rw [if_pos h1, e4]

/-- A call `write(1)` raises the usage message of `write`. -/
theorem missing_arguments_witness :
    i2clua_write (stubOS true 3 1) { stack := [intArg 1], position := [] } =
      LuaCall.raised
        "Missing arguments. Usage: result = write(bus, address [, write_data])".toList :=
  (missing_arguments (stubOS true 3 1) { stack := [intArg 1], position := [] }
    (by decide)).2.1

/-- The length fields of the two messages are the sizes reduced modulo 65536,
and every message submitted is one of the two. -/
theorem message_len_mod_65536 (os : MockOS) (op : Nat) (address : Int) (wr_data : Ptr)
    (wr_length rd_length : Nat) :
    ∀ m ∈ submitted (request os op address wr_data wr_length rd_length),
      (m.flags = 0 ∧ m.buf = wr_data ∧ m.len = wr_length % 65536) ∨
      (m.flags = I2C_M_RD ∧ m.buf = readBuffer os rd_length ∧ m.len = rd_length % 65536) := by
  intro m hm
  unfold request ioctlData submitted at hm
  by_cases hwr : op &&& I2CLUA_OP_WR ≠ 0 <;> by_cases hrd : op &&& I2CLUA_OP_RD ≠ 0 <;>
    simp [hwr, hrd] at hm
  · rcases hm with rfl | rfl <;> simp
  · subst hm
    simp
  · subst hm
    simp
  · subst hm
    simp

/-- For a combined transfer with a payload of 65538 bytes the write message
submitted has `len = 2`. -/
theorem message_len_mod_65536_witness :
    ((2 : Nat) = 65538 % 65536) ∧
    (((0 : Nat) = 0 ∧ (none : Ptr) = none ∧ (2 : Nat) = 65538 % 65536) ∨
      ((0 : Nat) = I2C_M_RD ∧ (none : Ptr) = readBuffer (stubOS true 3 2) 3 ∧
        (2 : Nat) = 3 % 65536)) :=
  ⟨by decide,
   message_len_mod_65536 (stubOS true 3 2) (I2CLUA_OP_WR ||| I2CLUA_OP_RD) 80 none 65538 3
     { addr := 80, flags := 0, len := 2, buf := none } (by decide)⟩

end I2cLua
